import Mathlib

/-!
# udev-drmdaemon: the hotplug event pipeline of `drmdaemon.c`

A shallow embedding of `src/drmdaemon.c`:

* `udev_thread_handler` (the observer thread): its set-up and one iteration of
  its `while (1)` loop;
* `main`: its start-up sequence and one iteration of its `while (1)` loop.

Both functions talk to the outside world only through function calls, so the
embedding threads a *call trace* (`List Call`) through the code: every call the
C code makes is appended to the trace, in program order, with the arguments
that matter.  Results of external calls are inputs of the model.

The queue of `queue.h` is not part of the available sources; it is modelled
from the specification (section 4.1).

The two loops share only the queue, and every access to it sits between
`pthread_mutex_lock(&cond_mutex)` and `pthread_mutex_unlock(&cond_mutex)`, so a
run of the system is an interleaving of whole loop iterations (`Step`).
-/

namespace Drmdaemon

/-! ## Values -/

/-- A C pointer value (an event handle, a `struct udev *`, ...). -/
abbrev Ptr := Nat

/-- The null pointer. -/
def NULL : Ptr := 0

/-- Severity levels passed to `logger_log` (`debug.h`). -/
inductive LogLevel where
  | LOG_LVL_ERROR
  | LOG_LVL_OK
  | LOG_LVL_INFO
deriving DecidableEq

/-! ## The hand-off queue (`queue.h`) -/

/-- Modelled from the spec: `struct queue` of `queue.h` (absent from the
sources), "an ordered sequence of Hotplug Event handles". -/
structure queue where
  items : List Ptr
deriving DecidableEq

/-- Modelled from the spec: `queue_init` of `queue.h` (absent from the
sources); a fresh queue holds no event. -/
def queue_init : queue := { items := [] }

/-- Modelled from the spec: `queue_push` of `queue.h` (absent from the
sources), "appends event to the tail". -/
def queue_push (q : queue) (data : Ptr) : queue := { items := q.items ++ [data] }

/-- Modelled from the spec: `queue_pop` of `queue.h` (absent from the
sources), "removes and returns the head [...], or signals empty if none".
The second component is what is stored through the `void **` argument:
`none` when the queue is empty and nothing is stored. -/
def queue_pop (q : queue) : queue × Option Ptr :=
  match q.items with
  | [] => (q, none)
  | d :: rest => ({ items := rest }, some d)

/-- Modelled from the spec: `QUEUE_SIZE` of `queue.h` (absent from the
sources), "returns current length". -/
def QUEUE_SIZE (q : queue) : Nat := q.items.length

/-! ## Calls and traces -/

/-- The function calls made by `drmdaemon.c` (with `DEBUG` defined, as in the
source, so the `#ifndef DEBUG` block of `main` is compiled out).  The argument
of `queue_pop` is the value it stored in `data`; the argument of
`udev_device_unref` is the content of the local `data`, `none` standing for
the indeterminate value of the variable when nothing was stored in it. -/
inductive Call where
  | logger_log (lvl : LogLevel) (msg : String)
  | queue_init
  | init_drm_handler
  | populate_drm_conn_list (path : String)
  | pthread_create
  | udev_new
  | setup_udev_monitor (subsystem : String)
  | udev_monitor_get_fd
  | select
  | udev_monitor_receive_device
  | pthread_mutex_lock
  | pthread_mutex_unlock
  | QUEUE_SIZE
  | queue_push (data : Ptr)
  | queue_pop (data : Option Ptr)
  | udev_device_unref (dev : Option Ptr)
deriving DecidableEq

/-- The state shared by the two threads: the queue, and the calls made so far
by the two loops. -/
structure System where
  udev_queue : queue
  trace : List Call
deriving DecidableEq

/-- The system when the two loops start: the queue as `queue_init` made it. -/
def boot : System := { udev_queue := queue_init, trace := [] }

/-! ## `udev_thread_handler` -/

/-- Lines 78-90 of `udev_thread_handler`: the set-up of the monitoring channel.
`udev` is the result of `udev_new()`, `mon` the result of
`setup_udev_monitor(udev, "drm")`.  Returns the calls made and `some 0` when
the function returns (`return 0`), `none` when it goes on into its loop. -/
def udev_thread_handler_setup (udev mon : Ptr) : List Call × Option Ptr :=
  if udev = NULL then
    ([Call.udev_new,
      Call.logger_log LogLevel.LOG_LVL_ERROR "Failed to create udev instance"], some 0)
  else if mon = NULL then
    ([Call.udev_new, Call.setup_udev_monitor "drm"], some 0)
  else
    ([Call.udev_new, Call.setup_udev_monitor "drm",
      Call.logger_log LogLevel.LOG_LVL_OK "Udev initialisation ok",
      Call.udev_monitor_get_fd], none)

/-- The calls of one iteration of the loop of `udev_thread_handler` (lines
92-110).  `ret` is the result of `select`, `isset` the value of
`FD_ISSET(fd, &fds)` after it, `dev` the result of
`udev_monitor_receive_device(mon)` (used only when that call is made). -/
def observer_calls (ret : Int) (isset : Bool) (dev : Ptr) : List Call :=
  if ret > 0 ∧ isset = true then
    if dev = NULL then
      [Call.select, Call.udev_monitor_receive_device,
       Call.logger_log LogLevel.LOG_LVL_ERROR "Failed to retrieve device\n"]
    else
      [Call.select, Call.udev_monitor_receive_device,
       Call.pthread_mutex_lock, Call.queue_push dev, Call.pthread_mutex_unlock]
  else
    [Call.select]

/-- One iteration of the loop of `udev_thread_handler` (lines 92-110). -/
def observer_iteration (s : System) (ret : Int) (isset : Bool) (dev : Ptr) : System :=
  if ret > 0 ∧ isset = true then
    if dev = NULL then
      { s with trace := s.trace ++ observer_calls ret isset dev }
    else
      { udev_queue := queue_push s.udev_queue dev,
        trace := s.trace ++ observer_calls ret isset dev }
  else
    { s with trace := s.trace ++ observer_calls ret isset dev }

/-- The function `udev_thread_handler`, run for as many loop iterations as
`inputs` has entries (one `(ret, isset, dev)` per iteration).  The first
component is `some 0` when the function has returned, `none` when it is still
in its loop. -/
def udev_thread_handler (udev mon : Ptr) (inputs : List (Int × Bool × Ptr))
    (s : System) : Option Ptr × System :=
  match udev_thread_handler_setup udev mon with
  | (calls, some r) => (some r, { s with trace := s.trace ++ calls })
  | (calls, none) =>
    (none, inputs.foldl (fun st i => observer_iteration st i.1 i.2.1 i.2.2)
      { s with trace := s.trace ++ calls })

/-! ## `main` -/

/-- The calls of one iteration of the loop of `main` (lines 160-167) on the
queue `q`. -/
def consumer_calls (q : queue) : List Call :=
  if QUEUE_SIZE q != 0 then
    [Call.pthread_mutex_lock, Call.QUEUE_SIZE,
     Call.logger_log LogLevel.LOG_LVL_INFO "new items added",
     Call.queue_pop (queue_pop q).2,
     Call.udev_device_unref (queue_pop q).2,
     Call.pthread_mutex_unlock]
  else
    [Call.pthread_mutex_lock, Call.QUEUE_SIZE, Call.pthread_mutex_unlock]

/-- One iteration of the loop of `main` (lines 160-167). -/
def consumer_iteration (s : System) : System :=
  if QUEUE_SIZE s.udev_queue != 0 then
    { udev_queue := (queue_pop s.udev_queue).1,
      trace := s.trace ++ consumer_calls s.udev_queue }
  else
    { s with trace := s.trace ++ consumer_calls s.udev_queue }

/-- One atomic step of the system: an iteration of the observer loop (with the
results of its external calls) or an iteration of the loop of `main`. -/
inductive Step where
  | observer (ret : Int) (isset : Bool) (dev : Ptr)
  | consumer
deriving DecidableEq

/-- The effect of one step. -/
def step (s : System) : Step → System
  | Step.observer ret isset dev => observer_iteration s ret isset dev
  | Step.consumer => consumer_iteration s

/-- The effect of a schedule, an interleaving of iterations of the two loops. -/
def run (s : System) (sched : List Step) : System := sched.foldl step s

/-- Lines 117-154 of `main`: everything before the `while (1)` loop.
`init_res` is the result of `init_drm_handler()`, `connectors` the result of
`populate_drm_conn_list("/dev/dri/card0")`, `thread_res` the result of
`pthread_create`.  Returns the calls made and `some retval` when `main`
reaches `end: return retval;`, `none` when it enters the loop. -/
def main_startup (init_res : Int) (connectors : Ptr) (thread_res : Int) :
    List Call × Option Int :=
  let retval : Int := 0
  let t0 := [Call.queue_init,
    Call.logger_log LogLevel.LOG_LVL_INFO "Running drmdaemon",
    Call.logger_log LogLevel.LOG_LVL_INFO "Creating daemon",
    Call.init_drm_handler]
  if init_res < 0 then
    let retval : Int := -1
    (t0, some retval)
  else
    let t1 := t0 ++ [Call.logger_log LogLevel.LOG_LVL_INFO "Populating DRM connector list",
      Call.populate_drm_conn_list "/dev/dri/card0"]
    if connectors = NULL then
      let retval : Int := -1
      (t1 ++ [Call.logger_log LogLevel.LOG_LVL_ERROR "Failed to retrieve connectors"],
        some retval)
    else
      let t2 := t1 ++ [Call.logger_log LogLevel.LOG_LVL_OK "List populated",
        Call.pthread_create]
      if thread_res < 0 then
        (t2 ++ [Call.logger_log LogLevel.LOG_LVL_ERROR "Failed to create pthread"],
          some retval)
      else
        (t2, none)

/-- The result of running `main`: the calls made before the loop, the value
returned (`none` while `main` is in its loop), and the state of the system. -/
structure MainResult where
  startup : List Call
  retval : Option Int
  sys : System

/-- The function `main`, run along the schedule `sched` once it is in its
loop (the schedule interleaves its iterations with those of the observer
thread).  `retval` is `none` when `main` is still in the loop at the end of the
schedule. -/
def main (init_res : Int) (connectors : Ptr) (thread_res : Int) (sched : List Step) :
    MainResult :=
  match main_startup init_res connectors thread_res with
  | (calls, some r) => { startup := calls, retval := some r, sys := boot }
  | (calls, none) => { startup := calls, retval := none, sys := run boot sched }

/-! ## Observations on traces -/

/-- The events pushed onto the queue, in order. -/
def pushed (t : List Call) : List Ptr :=
  t.filterMap fun c => match c with
    | Call.queue_push d => some d
    | _ => none

/-- The values stored by the `queue_pop` calls, in order. -/
def popped (t : List Call) : List (Option Ptr) :=
  t.filterMap fun c => match c with
    | Call.queue_pop d => some d
    | _ => none

/-- The arguments of the `udev_device_unref` calls, in order. -/
def released (t : List Call) : List (Option Ptr) :=
  t.filterMap fun c => match c with
    | Call.udev_device_unref d => some d
    | _ => none

/-- The number of calls of `udev_device_unref` made on the event `e`. -/
def release_count (t : List Call) (e : Ptr) : Nat :=
  ((released t).filter fun d => decide (d = some e)).length

/-- The calls made while `cond_mutex` is held (`held` tells whether it is held
at the start of the trace). -/
def locked_calls : Bool → List Call → List Call
  | _, [] => []
  | _, Call.pthread_mutex_lock :: t => locked_calls true t
  | _, Call.pthread_mutex_unlock :: t => locked_calls false t
  | true, c :: t => c :: locked_calls true t
  | false, _ :: t => locked_calls false t

/-- Whether a call reads or changes the shared queue. -/
def is_queue_access : Call → Bool
  | Call.QUEUE_SIZE => true
  | Call.queue_push _ => true
  | Call.queue_pop _ => true
  | _ => false

/-- The locking discipline on a trace: `cond_mutex` is locked only when free
and unlocked only when held, the queue is accessed only while it is held, and
it is free at the end. -/
def lock_discipline : Bool → List Call → Bool
  | held, [] => !held
  | held, Call.pthread_mutex_lock :: t => !held && lock_discipline true t
  | held, Call.pthread_mutex_unlock :: t => held && lock_discipline false t
  | held, c :: t => (!is_queue_access c || held) && lock_discipline held t

/-- The number of polls of `main` that find the queue non-empty along a
schedule started in `s`. -/
def nonempty_polls (s : System) : List Step → Nat
  | [] => 0
  | Step.consumer :: rest =>
    (if QUEUE_SIZE s.udev_queue != 0 then 1 else 0)
      + nonempty_polls (step s Step.consumer) rest
  | st :: rest => nonempty_polls (step s st) rest

/-- The link between the trace and the queue: the events pushed so far are the
events popped so far followed by the content of the queue, and the events
released are the events popped. -/
def Inv (s : System) : Prop :=
  (pushed s.trace).map some = popped s.trace ++ s.udev_queue.items.map some ∧
  released s.trace = popped s.trace

instance (s : System) : Decidable (Inv s) := by
  unfold Inv
  infer_instance

/-! ## Traces -/

/-- The events pushed along two traces in a row. -/
theorem pushed_append (a b : List Call) : pushed (a ++ b) = pushed a ++ pushed b := by
  simp [pushed]

/-- The values popped along two traces in a row. -/
theorem popped_append (a b : List Call) : popped (a ++ b) = popped a ++ popped b := by
  simp [popped]

/-- The values released along two traces in a row. -/
theorem released_append (a b : List Call) : released (a ++ b) = released a ++ released b := by
  simp [released]

/-! ## Start-up of `main` -/

/-- The value `main` returns, by cases on the results of its start-up calls. -/
theorem main_retval_cases (init_res : Int) (connectors : Ptr) (thread_res : Int)
    (sched : List Step) :
    (main init_res connectors thread_res sched).retval =
      if init_res < 0 ∨ connectors = NULL then some (-1)
      else if thread_res < 0 then some 0 else none := by
  unfold main main_startup
  by_cases h1 : init_res < 0
  · simp [h1]
  · by_cases h2 : connectors = NULL
    · simp [h1, h2]
    · by_cases h3 : thread_res < 0 <;> simp [h1, h2, h3]

/-- C4: when `init_drm_handler` fails (negative result) or
`populate_drm_conn_list` returns `NULL`, `main` returns `-1`, never calls
`pthread_create` and never runs an iteration of its loop; conversely, when
`pthread_create` is called, both steps succeeded and their calls come before
it. -/
theorem main_fatal_startup (init_res : Int) (connectors : Ptr) (thread_res : Int)
    (sched : List Step) :
    ((init_res < 0 ∨ connectors = NULL) →
      (main init_res connectors thread_res sched).retval = some (-1) ∧
      Call.pthread_create ∉ (main init_res connectors thread_res sched).startup ∧
      (main init_res connectors thread_res sched).sys = boot) ∧
    (Call.pthread_create ∈ (main init_res connectors thread_res sched).startup →
      0 ≤ init_res ∧ connectors ≠ NULL ∧
      ∃ before after,
        (main init_res connectors thread_res sched).startup =
          before ++ Call.pthread_create :: after ∧
        Call.init_drm_handler ∈ before ∧
        Call.populate_drm_conn_list "/dev/dri/card0" ∈ before ∧
        Call.pthread_create ∉ before) := by
  by_cases h1 : init_res < 0
  · simp [main, main_startup, h1]
  · by_cases h2 : connectors = NULL
    · simp [main, main_startup, h1, h2]
    · have h1' : 0 ≤ init_res := not_lt.mp h1
      by_cases h3 : thread_res < 0
      · simp only [main, main_startup, h1, h2, h3, if_true, if_false, false_or]
        refine ⟨by simp, fun _ => ⟨h1', h2, ?_⟩⟩
        exact ⟨[Call.queue_init,
          Call.logger_log LogLevel.LOG_LVL_INFO "Running drmdaemon",
          Call.logger_log LogLevel.LOG_LVL_INFO "Creating daemon",
          Call.init_drm_handler,
          Call.logger_log LogLevel.LOG_LVL_INFO "Populating DRM connector list",
          Call.populate_drm_conn_list "/dev/dri/card0",
          Call.logger_log LogLevel.LOG_LVL_OK "List populated"],
          [Call.logger_log LogLevel.LOG_LVL_ERROR "Failed to create pthread"],
          by simp, by simp, by simp, by simp⟩
      · simp only [main, main_startup, h1, h2, h3, if_true, if_false, false_or]
        refine ⟨by simp, fun _ => ⟨h1', h2, ?_⟩⟩
        exact ⟨[Call.queue_init,
          Call.logger_log LogLevel.LOG_LVL_INFO "Running drmdaemon",
          Call.logger_log LogLevel.LOG_LVL_INFO "Creating daemon",
          Call.init_drm_handler,
          Call.logger_log LogLevel.LOG_LVL_INFO "Populating DRM connector list",
          Call.populate_drm_conn_list "/dev/dri/card0",
          Call.logger_log LogLevel.LOG_LVL_OK "List populated"],
          [], by simp, by simp, by simp, by simp⟩

/-- Witness for C4: `populate_drm_conn_list` returning `NULL`,
and a run in which the thread is created. -/
theorem main_fatal_startup_witness :
    ((main 0 NULL 0 [Step.consumer]).retval = some (-1) ∧
      Call.pthread_create ∉ (main 0 NULL 0 [Step.consumer]).startup ∧
      (main 0 NULL 0 [Step.consumer]).sys = boot) ∧
    ((0 : Int) ≤ 0 ∧ (1 : Ptr) ≠ NULL) :=
  ⟨(main_fatal_startup 0 NULL 0 [Step.consumer]).1 (Or.inr rfl),
   ((main_fatal_startup 0 1 0 [Step.consumer]).2
      (by simp [main, main_startup, NULL])).1,
   ((main_fatal_startup 0 1 0 [Step.consumer]).2
      (by simp [main, main_startup, NULL])).2.1⟩

/-- C10: the value `main` returns is determined by its start-up calls; when it
returns, the value is `-1` exactly when `init_drm_handler` failed or
`populate_drm_conn_list` returned `NULL`; when `pthread_create` gives a
negative result after both succeeded, `main` logs an error and returns `0`;
and when `main` has not returned it is in its loop, however long the schedule
(it never returns). -/
theorem main_return_value (init_res : Int) (connectors : Ptr) (thread_res : Int)
    (sched : List Step) :
    ((main init_res connectors thread_res sched).retval =
      if init_res < 0 ∨ connectors = NULL then some (-1)
      else if thread_res < 0 then some 0 else none) ∧
    (∀ r, (main init_res connectors thread_res sched).retval = some r →
      (r = -1 ↔ (init_res < 0 ∨ connectors = NULL))) ∧
    (0 ≤ init_res → connectors ≠ NULL → thread_res < 0 →
      (main init_res connectors thread_res sched).retval = some 0 ∧
      (main init_res connectors thread_res sched).startup.getLast? =
        some (Call.logger_log LogLevel.LOG_LVL_ERROR "Failed to create pthread")) ∧
    ((main init_res connectors thread_res sched).retval = none →
      ∀ longer : List Step,
        (main init_res connectors thread_res longer).retval = none ∧
        (main init_res connectors thread_res longer).sys = run boot longer) := by
  refine ⟨main_retval_cases _ _ _ _, ?_, ?_, ?_⟩
  · intro r hr
    rw [main_retval_cases] at hr
    by_cases h : init_res < 0 ∨ connectors = NULL
    · simp only [h, if_true, Option.some.injEq] at hr
      simp [h, ← hr]
    · by_cases h3 : thread_res < 0
      · simp only [h, h3, if_true, if_false, Option.some.injEq] at hr
        simp [h, ← hr]
      · simp [h, h3] at hr
  · intro h1 h2 h3
    have h1' : ¬ init_res < 0 := not_lt.mpr h1
    simp [main, main_startup, h1', h2, h3]
  · intro hnone longer
    rw [main_retval_cases] at hnone
    by_cases h1 : init_res < 0
    · simp [h1] at hnone
    · by_cases h2 : connectors = NULL
      · simp [h2] at hnone
      · by_cases h3 : thread_res < 0
        · simp [h1, h2, h3] at hnone
        · simp [main, main_startup, h1, h2, h3]

/-- Witness for C10: `pthread_create` reported as failed, the
value returned then, and a run in which `main` stays in its loop. -/
theorem main_return_value_witness :
    ((main 0 1 (-1) []).retval = some 0 ∧
      (main 0 1 (-1) []).startup.getLast? =
        some (Call.logger_log LogLevel.LOG_LVL_ERROR "Failed to create pthread")) ∧
    (((0 : Int) = -1) ↔ ((0 : Int) < 0 ∨ (1 : Ptr) = NULL)) ∧
    ((main 0 1 0 [Step.consumer]).retval = none ∧
      (main 0 1 0 [Step.consumer]).sys = run boot [Step.consumer]) :=
  ⟨(main_return_value 0 1 (-1) []).2.2.1 (le_refl 0) (by decide) (by decide),
   (main_return_value 0 1 (-1) []).2.1 0
     ((main_return_value 0 1 (-1) []).2.2.1 (le_refl 0) (by decide) (by decide)).1,
   (main_return_value 0 1 0 []).2.2.2
     (by simp [main, main_startup, NULL]) [Step.consumer]⟩

/-! ## One iteration of each loop -/

/-- Every iteration of the observer loop appends its calls to the trace. -/
theorem observer_iteration_trace (s : System) (ret : Int) (isset : Bool) (dev : Ptr) :
    (observer_iteration s ret isset dev).trace = s.trace ++ observer_calls ret isset dev := by
  unfold observer_iteration
  split
  · split <;> rfl
  · rfl

/-- Every iteration of the loop of `main` appends its calls to the trace. -/
theorem consumer_iteration_trace (s : System) :
    (consumer_iteration s).trace = s.trace ++ consumer_calls s.udev_queue := by
  unfold consumer_iteration
  split <;> rfl

/-- An iteration of the loop of `main` on a non-empty queue. -/
theorem consumer_iteration_cons (t : List Call) (d : Ptr) (rest : List Ptr) :
    consumer_iteration { udev_queue := { items := d :: rest }, trace := t } =
      { udev_queue := { items := rest },
        trace := t ++ [Call.pthread_mutex_lock, Call.QUEUE_SIZE,
          Call.logger_log LogLevel.LOG_LVL_INFO "new items added",
          Call.queue_pop (some d), Call.udev_device_unref (some d),
          Call.pthread_mutex_unlock] } := by
  simp [consumer_iteration, consumer_calls, QUEUE_SIZE, queue_pop]

/-- An iteration of the loop of `main` on an empty queue. -/
theorem consumer_iteration_nil (t : List Call) :
    consumer_iteration { udev_queue := { items := [] }, trace := t } =
      { udev_queue := { items := [] },
        trace := t ++ [Call.pthread_mutex_lock, Call.QUEUE_SIZE,
          Call.pthread_mutex_unlock] } := by
  simp [consumer_iteration, consumer_calls, QUEUE_SIZE]

/-- C6: one iteration of the observer loop, on every state.  When `select`
reports the channel ready and `udev_monitor_receive_device` returns a non-NULL
event, exactly that event is appended at the tail of the queue; when it returns
`NULL`, an error is logged and the queue is unchanged; when `select` does not
report readiness, nothing is retrieved and the queue is unchanged. -/
theorem observer_iteration_effect (s : System) (ret : Int) (isset : Bool) (dev : Ptr) :
    (ret > 0 → isset = true → dev ≠ NULL →
      (observer_iteration s ret isset dev).udev_queue.items = s.udev_queue.items ++ [dev] ∧
      (observer_iteration s ret isset dev).trace = s.trace ++
        [Call.select, Call.udev_monitor_receive_device,
         Call.pthread_mutex_lock, Call.queue_push dev, Call.pthread_mutex_unlock]) ∧
    (ret > 0 → isset = true → dev = NULL →
      (observer_iteration s ret isset dev).udev_queue = s.udev_queue ∧
      (observer_iteration s ret isset dev).trace = s.trace ++
        [Call.select, Call.udev_monitor_receive_device,
         Call.logger_log LogLevel.LOG_LVL_ERROR "Failed to retrieve device\n"]) ∧
    (¬ (ret > 0 ∧ isset = true) →
      (observer_iteration s ret isset dev).udev_queue = s.udev_queue ∧
      (observer_iteration s ret isset dev).trace = s.trace ++ [Call.select]) := by
  refine ⟨?_, ?_, ?_⟩
  · intro h1 h2 h3
    simp [observer_iteration, observer_calls, queue_push, h1, h2, h3]
  · intro h1 h2 h3
    simp [observer_iteration, observer_calls, h1, h2, h3]
  · intro h
    simp only [observer_iteration, observer_calls, h, if_false, and_self]

/-- Witness for C6: an event, a spurious wake-up and a
`select` that reports nothing, on a queue that holds one event. -/
theorem observer_iteration_effect_witness :
    ((observer_iteration { udev_queue := { items := [5] }, trace := [] } 1 true 7).udev_queue.items
        = [5] ++ [7] ∧
      (observer_iteration { udev_queue := { items := [5] }, trace := [] } 1 true 7).trace = [] ++
        [Call.select, Call.udev_monitor_receive_device,
         Call.pthread_mutex_lock, Call.queue_push 7, Call.pthread_mutex_unlock]) ∧
    ((observer_iteration { udev_queue := { items := [5] }, trace := [] } 1 true NULL).udev_queue
        = { items := [5] } ∧
      (observer_iteration { udev_queue := { items := [5] }, trace := [] } 1 true NULL).trace = [] ++
        [Call.select, Call.udev_monitor_receive_device,
         Call.logger_log LogLevel.LOG_LVL_ERROR "Failed to retrieve device\n"]) ∧
    ((observer_iteration { udev_queue := { items := [5] }, trace := [] } 0 true 7).udev_queue
        = { items := [5] } ∧
      (observer_iteration { udev_queue := { items := [5] }, trace := [] } 0 true 7).trace
        = [] ++ [Call.select]) :=
  ⟨(observer_iteration_effect { udev_queue := { items := [5] }, trace := [] } 1 true 7).1
      (by decide) rfl (by decide),
   (observer_iteration_effect { udev_queue := { items := [5] }, trace := [] } 1 true NULL).2.1
      (by decide) rfl rfl,
   (observer_iteration_effect { udev_queue := { items := [5] }, trace := [] } 0 true 7).2.2
      (by decide)⟩

/-- The state after `k` iterations of the loop of `main` with no push in
between: the first `k` events of the queue are gone, and they have been popped
and released in order. -/
theorem consumer_iterate (k : Nat) (s : System) :
    (Nat.iterate consumer_iteration k s).udev_queue.items = s.udev_queue.items.drop k ∧
    popped (Nat.iterate consumer_iteration k s).trace =
      popped s.trace ++ (s.udev_queue.items.take k).map some ∧
    released (Nat.iterate consumer_iteration k s).trace =
      released s.trace ++ (s.udev_queue.items.take k).map some ∧
    pushed (Nat.iterate consumer_iteration k s).trace = pushed s.trace := by
  induction k generalizing s with
  | zero => simp
  | succ k ih =>
    rw [Function.iterate_succ_apply]
    obtain ⟨⟨items⟩, t⟩ := s
    cases items with
    | nil =>
      have h := ih (consumer_iteration { udev_queue := { items := [] }, trace := t })
      rw [consumer_iteration_nil] at h ⊢
      simpa [popped, released, pushed] using h
    | cons d rest =>
      have h := ih (consumer_iteration { udev_queue := { items := d :: rest }, trace := t })
      rw [consumer_iteration_cons] at h ⊢
      simpa [popped, released, pushed] using h

/-- C9: one iteration of the loop of `main`, on every state.  When the queue
size is non-zero it removes exactly the head of the queue and releases it, so
the size goes down by one, and a queue of `n` events is empty after `k`
iterations exactly when `n ≤ k`; when the size is zero it pops nothing,
releases nothing and leaves the queue unchanged. -/
theorem consumer_iteration_effect (s : System) :
    (QUEUE_SIZE s.udev_queue ≠ 0 →
      ∃ d, s.udev_queue.items = d :: (consumer_iteration s).udev_queue.items ∧
        popped (consumer_calls s.udev_queue) = [some d] ∧
        released (consumer_calls s.udev_queue) = [some d] ∧
        QUEUE_SIZE (consumer_iteration s).udev_queue = QUEUE_SIZE s.udev_queue - 1) ∧
    (QUEUE_SIZE s.udev_queue = 0 →
      (consumer_iteration s).udev_queue = s.udev_queue ∧
      popped (consumer_calls s.udev_queue) = [] ∧
      released (consumer_calls s.udev_queue) = []) ∧
    (consumer_iteration s).trace = s.trace ++ consumer_calls s.udev_queue ∧
    (∀ k, QUEUE_SIZE (Nat.iterate consumer_iteration k s).udev_queue
        = QUEUE_SIZE s.udev_queue - k) ∧
    (∀ k, QUEUE_SIZE (Nat.iterate consumer_iteration k s).udev_queue = 0
        ↔ QUEUE_SIZE s.udev_queue ≤ k) := by
  have hlen : ∀ k, QUEUE_SIZE (Nat.iterate consumer_iteration k s).udev_queue
      = QUEUE_SIZE s.udev_queue - k := by
    intro k
    simp [QUEUE_SIZE, (consumer_iterate k s).1]
  refine ⟨?_, ?_, consumer_iteration_trace s, hlen, ?_⟩
  · intro h
    obtain ⟨⟨items⟩, t⟩ := s
    cases items with
    | nil => simp [QUEUE_SIZE] at h
    | cons d rest =>
      refine ⟨d, ?_⟩
      simp [consumer_iteration, consumer_calls, QUEUE_SIZE, queue_pop, popped, released]
  · intro h
    simp [consumer_iteration, consumer_calls, h, popped, released]
  · intro k
    rw [hlen k]
    omega

/-- Witness for C9: a queue of two events, and an
empty queue. -/
theorem consumer_iteration_effect_witness :
    (∃ d, ({ udev_queue := { items := [3, 4] }, trace := [] } : System).udev_queue.items =
        d :: (consumer_iteration { udev_queue := { items := [3, 4] }, trace := [] }).udev_queue.items ∧
        popped (consumer_calls { items := [3, 4] }) = [some d] ∧
        released (consumer_calls { items := [3, 4] }) = [some d] ∧
        QUEUE_SIZE (consumer_iteration { udev_queue := { items := [3, 4] }, trace := [] }).udev_queue
          = QUEUE_SIZE { items := [3, 4] } - 1) ∧
    ((consumer_iteration boot).udev_queue = boot.udev_queue ∧
      popped (consumer_calls boot.udev_queue) = [] ∧
      released (consumer_calls boot.udev_queue) = []) :=
  ⟨(consumer_iteration_effect { udev_queue := { items := [3, 4] }, trace := [] }).1 (by decide),
   (consumer_iteration_effect boot).2.1 (by decide)⟩

/-! ## The span of the lock in the loop of `main` -/

/-- C7, counterexample: on a queue holding the event `7`, the calls made by one
iteration of the loop of `main` while `cond_mutex` is held include a logging
call and the release of the event, which are neither the size check nor the
pop. -/
theorem consumer_lock_span_counterexample :
    locked_calls false (consumer_calls { items := [7] }) =
      [Call.QUEUE_SIZE, Call.logger_log LogLevel.LOG_LVL_INFO "new items added",
       Call.queue_pop (some 7), Call.udev_device_unref (some 7)] ∧
    ¬ (∀ c ∈ locked_calls false (consumer_calls { items := [7] }),
        c = Call.QUEUE_SIZE ∨ ∃ d, c = Call.queue_pop d) := by
  have h : locked_calls false (consumer_calls { items := [7] }) =
      [Call.QUEUE_SIZE, Call.logger_log LogLevel.LOG_LVL_INFO "new items added",
       Call.queue_pop (some 7), Call.udev_device_unref (some 7)] := by
    simp [consumer_calls, QUEUE_SIZE, queue_pop, locked_calls]
  refine ⟨h, ?_⟩
  rw [h]
  intro hall
  have := hall (Call.udev_device_unref (some 7)) (by simp)
  simp at this

/-- C7, amended: in one iteration of the loop of `main`, the calls made while
`cond_mutex` is held are the size check and, when the size is non-zero, the
logging call, the pop and the release of the popped event, in that order; no
other call is made while the lock is held, and the lock is free after the
iteration. -/
theorem consumer_lock_span (q : queue) :
    locked_calls false (consumer_calls q) =
      (if QUEUE_SIZE q != 0 then
        [Call.QUEUE_SIZE, Call.logger_log LogLevel.LOG_LVL_INFO "new items added",
         Call.queue_pop (queue_pop q).2, Call.udev_device_unref (queue_pop q).2]
       else [Call.QUEUE_SIZE]) ∧
    consumer_calls q =
      Call.pthread_mutex_lock :: locked_calls false (consumer_calls q)
        ++ [Call.pthread_mutex_unlock] := by
  unfold consumer_calls
  split <;> simp [locked_calls]

/-! ## A poll cycle on a burst of events -/

/-- C1, counterexample: on a queue holding the two events `1` and `2`, one
iteration of the loop of `main` pops and releases the event `1` only; the
event `2` is still in the queue afterwards, and these are all the calls the
iteration makes. -/
theorem poll_cycle_counterexample :
    QUEUE_SIZE ({ udev_queue := { items := [1, 2] }, trace := [] } : System).udev_queue = 2 ∧
    consumer_iteration { udev_queue := { items := [1, 2] }, trace := [] } =
      { udev_queue := { items := [2] },
        trace := [Call.pthread_mutex_lock, Call.QUEUE_SIZE,
          Call.logger_log LogLevel.LOG_LVL_INFO "new items added",
          Call.queue_pop (some 1), Call.udev_device_unref (some 1),
          Call.pthread_mutex_unlock] } ∧
    QUEUE_SIZE (consumer_iteration
      { udev_queue := { items := [1, 2] }, trace := [] }).udev_queue ≠ 0 := by
  refine ⟨rfl, ?_, ?_⟩
  · rw [consumer_iteration_cons]; rfl
  · rw [consumer_iteration_cons]; decide

/-- C1, amended: on a queue holding `N ≥ 1` events, one iteration of the loop
of `main` pops and releases exactly the head of the queue and leaves the other
`N - 1` events in it; `N` iterations with no push in between pop and release
the `N` events in queue order and leave the queue empty, and fewer do not. -/
theorem poll_cycle_drains_one (s : System) (N : Nat)
    (hN : QUEUE_SIZE s.udev_queue = N) (hpos : 1 ≤ N) :
    (∃ d, s.udev_queue.items = d :: (consumer_iteration s).udev_queue.items ∧
      popped (consumer_iteration s).trace = popped s.trace ++ [some d] ∧
      released (consumer_iteration s).trace = released s.trace ++ [some d]) ∧
    QUEUE_SIZE (consumer_iteration s).udev_queue = N - 1 ∧
    (Nat.iterate consumer_iteration N s).udev_queue = queue_init ∧
    popped (Nat.iterate consumer_iteration N s).trace =
      popped s.trace ++ s.udev_queue.items.map some ∧
    released (Nat.iterate consumer_iteration N s).trace =
      released s.trace ++ s.udev_queue.items.map some ∧
    (∀ k, k < N → QUEUE_SIZE (Nat.iterate consumer_iteration k s).udev_queue ≠ 0) := by
  obtain ⟨⟨items⟩, t⟩ := s
  have hlen : items.length = N := hN
  refine ⟨?_, ?_, ?_, ?_, ?_, ?_⟩
  · cases items with
    | nil => simp at hlen; omega
    | cons d rest =>
      refine ⟨d, ?_⟩
      rw [consumer_iteration_cons]
      simp [popped, released]
  · cases items with
    | nil => simp at hlen; omega
    | cons d rest =>
      rw [consumer_iteration_cons]
      simp [QUEUE_SIZE] at hlen ⊢
      omega
  · have h := (consumer_iterate N { udev_queue := { items := items }, trace := t }).1
    simp only [← hlen, List.drop_length] at h
    cases hq : (Nat.iterate consumer_iteration N
      { udev_queue := { items := items }, trace := t }).udev_queue with
    | mk its =>
      rw [← hlen] at hq
      rw [hq] at h
      simp only at h
      rw [h]; rfl
  · have h := (consumer_iterate N { udev_queue := { items := items }, trace := t }).2.1
    simpa [← hlen] using h
  · have h := (consumer_iterate N { udev_queue := { items := items }, trace := t }).2.2.1
    simpa [← hlen] using h
  · intro k hk
    have h := (consumer_iterate k { udev_queue := { items := items }, trace := t }).1
    simp only [QUEUE_SIZE, h, List.length_drop]
    simp only at hlen ⊢
    omega

/-- Witness for C1: a queue holding three events. -/
theorem poll_cycle_drains_one_witness :
    QUEUE_SIZE (consumer_iteration
      { udev_queue := { items := [1, 2, 3] }, trace := [] }).udev_queue = 3 - 1 ∧
    (Nat.iterate consumer_iteration 3
      { udev_queue := { items := [1, 2, 3] }, trace := [] }).udev_queue = queue_init :=
  ⟨(poll_cycle_drains_one { udev_queue := { items := [1, 2, 3] }, trace := [] } 3 rfl
      (by decide)).2.1,
   (poll_cycle_drains_one { udev_queue := { items := [1, 2, 3] }, trace := [] } 3 rfl
      (by decide)).2.2.1⟩

/-! ## Failure to set up the monitoring channel -/

/-- C5, at the input `udev_new() = 1` (not `NULL`) and
`setup_udev_monitor(udev, "drm") = NULL`: `udev_thread_handler` returns `0`
having made the two calls `udev_new` and `setup_udev_monitor` only, so it makes
no logging call (and no push); when `udev_new()` is `NULL` it does log an
error.  After it, the queue is as `queue_init` made it, and any number of
iterations of the loop of `main` leave it so, with no pop and no release. -/
theorem observer_setup_failure (inputs : List (Int × Bool × Ptr)) (n : Nat) :
    udev_thread_handler 1 NULL inputs boot =
      (some 0, { udev_queue := queue_init,
                 trace := [Call.udev_new, Call.setup_udev_monitor "drm"] }) ∧
    (∀ lvl msg, Call.logger_log lvl msg ∉ (udev_thread_handler 1 NULL inputs boot).2.trace) ∧
    udev_thread_handler NULL NULL inputs boot =
      (some 0, { udev_queue := queue_init,
                 trace := [Call.udev_new, Call.logger_log LogLevel.LOG_LVL_ERROR
                   "Failed to create udev instance"] }) ∧
    (Nat.iterate consumer_iteration n
      (udev_thread_handler 1 NULL inputs boot).2).udev_queue = queue_init ∧
    popped (Nat.iterate consumer_iteration n
      (udev_thread_handler 1 NULL inputs boot).2).trace = [] ∧
    released (Nat.iterate consumer_iteration n
      (udev_thread_handler 1 NULL inputs boot).2).trace = [] ∧
    pushed (Nat.iterate consumer_iteration n
      (udev_thread_handler 1 NULL inputs boot).2).trace = [] := by
  have h1 : udev_thread_handler 1 NULL inputs boot =
      (some 0, { udev_queue := queue_init,
                 trace := [Call.udev_new, Call.setup_udev_monitor "drm"] }) := by
    simp [udev_thread_handler, udev_thread_handler_setup, NULL, boot]
  have h2 : udev_thread_handler NULL NULL inputs boot =
      (some 0, { udev_queue := queue_init,
                 trace := [Call.udev_new, Call.logger_log LogLevel.LOG_LVL_ERROR
                   "Failed to create udev instance"] }) := by
    simp [udev_thread_handler, udev_thread_handler_setup, boot]
  have hit := consumer_iterate n
    { udev_queue := queue_init, trace := [Call.udev_new, Call.setup_udev_monitor "drm"] }
  refine ⟨h1, ?_, h2, ?_, ?_, ?_, ?_⟩
  · intro lvl msg
    rw [h1]
    simp
  · rw [h1]
    cases hq : (Nat.iterate consumer_iteration n
      { udev_queue := queue_init,
        trace := [Call.udev_new, Call.setup_udev_monitor "drm"] }).udev_queue with
    | mk its =>
      have := hit.1
      rw [hq] at this
      simp [queue_init] at this
      simp [queue_init, this]
  · rw [h1]
    simpa [queue_init, popped] using hit.2.1
  · rw [h1]
    simpa [queue_init, released] using hit.2.2.1
  · rw [h1]
    simpa [queue_init, pushed] using hit.2.2.2

/-! ## Runs of the system -/

/-- The state of the system at the start satisfies `Inv`. -/
theorem inv_boot : Inv boot := by
  simp [Inv, boot, queue_init, pushed, popped, released]

/-- Every step keeps `Inv`. -/
theorem inv_step (s : System) (st : Step) (h : Inv s) : Inv (step s st) := by
  obtain ⟨⟨items⟩, t⟩ := s
  obtain ⟨h1, h2⟩ := h
  simp only at h1 h2
  cases st with
  | observer ret isset dev =>
    simp only [step, observer_iteration, observer_calls]
    by_cases hr : ret > 0 ∧ isset = true
    · by_cases hd : dev = NULL
      · simp only [hr, hd, and_self, if_true]
        constructor
        · simpa [pushed, popped] using h1
        · simpa [released, popped] using h2
      · simp only [hr, hd, and_self, if_true, if_false]
        constructor
        · simp only [pushed, popped, queue_push] at h1 ⊢
          simp [h1]
        · simpa [released, popped] using h2
    · simp only [hr, if_false]
      constructor
      · simpa [pushed, popped] using h1
      · simpa [released, popped] using h2
  | consumer =>
    simp only [step]
    cases items with
    | nil =>
      rw [consumer_iteration_nil]
      constructor
      · simpa [pushed, popped] using h1
      · simpa [released, popped] using h2
    | cons d rest =>
      rw [consumer_iteration_cons]
      constructor
      · simp only [pushed, popped] at h1 ⊢
        simp [h1]
      · simp only [released, popped] at h2 ⊢
        simp [h2]

/-- Every run keeps `Inv`. -/
theorem inv_run (sched : List Step) (s : System) (h : Inv s) : Inv (run s sched) := by
  induction sched generalizing s with
  | nil => exact h
  | cons st rest ih => exact ih (step s st) (inv_step s st h)

/-- A run of two schedules in a row. -/
theorem run_append (s : System) (a b : List Step) :
    run s (a ++ b) = run (run s a) b := by
  simp [run, List.foldl_append]

/-- A step only adds calls at the end of the trace. -/
theorem step_trace (s : System) (st : Step) : ∃ calls, (step s st).trace = s.trace ++ calls := by
  cases st with
  | observer ret isset dev => exact ⟨_, observer_iteration_trace s ret isset dev⟩
  | consumer => exact ⟨_, consumer_iteration_trace s⟩

/-- A run only adds calls at the end of the trace. -/
theorem run_trace (sched : List Step) (s : System) :
    ∃ calls, (run s sched).trace = s.trace ++ calls := by
  induction sched generalizing s with
  | nil => exact ⟨[], by simp [run]⟩
  | cons st rest ih =>
    obtain ⟨c1, h1⟩ := step_trace s st
    obtain ⟨c2, h2⟩ := ih (step s st)
    refine ⟨c1 ++ c2, ?_⟩
    have : run s (st :: rest) = run (step s st) rest := rfl
    rw [this, h2, h1, List.append_assoc]

/-- The number of pops made along a schedule is the number of polls that find
the queue non-empty. -/
theorem popped_length_run (sched : List Step) (s : System) :
    (popped (run s sched).trace).length = (popped s.trace).length + nonempty_polls s sched := by
  induction sched generalizing s with
  | nil => simp [run, nonempty_polls]
  | cons st rest ih =>
    have hrun : run s (st :: rest) = run (step s st) rest := rfl
    rw [hrun, ih (step s st)]
    obtain ⟨⟨items⟩, t⟩ := s
    cases st with
    | observer ret isset dev =>
      have ht := observer_iteration_trace { udev_queue := { items := items }, trace := t }
        ret isset dev
      simp only [step, nonempty_polls, ht]
      have hp : popped (observer_calls ret isset dev) = [] := by
        unfold observer_calls
        split
        · split <;> simp [popped]
        · simp [popped]
      rw [popped_append, hp]
      simp
    | consumer =>
      cases items with
      | nil =>
        simp only [step, nonempty_polls, consumer_iteration_nil]
        simp [popped, QUEUE_SIZE]
      | cons d rest =>
        simp only [step, nonempty_polls, consumer_iteration_cons]
        simp [popped, QUEUE_SIZE]
        omega

/-- The locking discipline holds of two traces in a row when it holds of
each. -/
theorem lock_discipline_append (a b : List Call) (held : Bool)
    (ha : lock_discipline held a = true) (hb : lock_discipline false b = true) :
    lock_discipline held (a ++ b) = true := by
  induction a generalizing held with
  | nil =>
    cases held
    · simpa using hb
    · simp [lock_discipline] at ha
  | cons c rest ih =>
    cases c <;> cases held <;>
      simp_all [lock_discipline, is_queue_access]

/-- The calls of an iteration of the observer loop follow the locking
discipline. -/
theorem observer_calls_locked (ret : Int) (isset : Bool) (dev : Ptr) :
    lock_discipline false (observer_calls ret isset dev) = true := by
  unfold observer_calls
  split
  · split <;> simp [lock_discipline, is_queue_access]
  · simp [lock_discipline, is_queue_access]

/-- The calls of an iteration of the loop of `main` follow the locking
discipline. -/
theorem consumer_calls_locked (q : queue) :
    lock_discipline false (consumer_calls q) = true := by
  unfold consumer_calls
  split <;> simp [lock_discipline, is_queue_access]

/-- The trace of every run follows the locking discipline when the trace of
its start does. -/
theorem run_locked (sched : List Step) (s : System)
    (h : lock_discipline false s.trace = true) :
    lock_discipline false (run s sched).trace = true := by
  induction sched generalizing s with
  | nil => exact h
  | cons st rest ih =>
    have hrun : run s (st :: rest) = run (step s st) rest := rfl
    rw [hrun]
    apply ih
    cases st with
    | observer ret isset dev =>
      simp only [step, observer_iteration_trace]
      exact lock_discipline_append _ _ _ h (observer_calls_locked ret isset dev)
    | consumer =>
      simp only [step, consumer_iteration_trace]
      exact lock_discipline_append _ _ _ h (consumer_calls_locked s.udev_queue)

/-- The events pushed during a run are still among the events pushed when the
run goes on. -/
theorem pushed_run_append (a b : List Step) :
    ∃ more, pushed (run boot (a ++ b)).trace = pushed (run boot a).trace ++ more := by
  obtain ⟨calls, h⟩ := run_trace b (run boot a)
  exact ⟨pushed calls, by rw [run_append, h, pushed_append]⟩

/-- The values popped during a run are still among the values popped when the
run goes on. -/
theorem popped_run_append (a b : List Step) :
    ∃ more, popped (run boot (a ++ b)).trace = popped (run boot a).trace ++ more := by
  obtain ⟨calls, h⟩ := run_trace b (run boot a)
  exact ⟨popped calls, by rw [run_append, h, popped_append]⟩

/-- C2: in every run (every interleaving `sched₁ ++ sched₂` of iterations of
the observer loop and of the loop of `main`, looked at after `sched₁`), the
events released are the events popped, and the events popped are, in the same
order, a first part of the events `P1..Pn` pushed in the whole run; the number
of events popped is the number of polls that found the queue non-empty, and
once there have been `n` of them the events popped are exactly `P1..Pn` and
the next poll finds the queue empty and pops nothing. -/
theorem fifo_order (sched₁ sched₂ : List Step) :
    released (run boot sched₁).trace = popped (run boot sched₁).trace ∧
    (∃ rest, (pushed (run boot (sched₁ ++ sched₂)).trace).map some =
      popped (run boot sched₁).trace ++ rest) ∧
    (popped (run boot sched₁).trace).length = nonempty_polls boot sched₁ ∧
    (nonempty_polls boot sched₁ = (pushed (run boot (sched₁ ++ sched₂)).trace).length →
      popped (run boot sched₁).trace =
        (pushed (run boot (sched₁ ++ sched₂)).trace).map some ∧
      QUEUE_SIZE (run boot sched₁).udev_queue = 0 ∧
      (consumer_iteration (run boot sched₁)).udev_queue = queue_init ∧
      popped (consumer_iteration (run boot sched₁)).trace =
        popped (run boot sched₁).trace) := by
  obtain ⟨h1, h2⟩ := inv_run sched₁ boot inv_boot
  obtain ⟨more, hmore⟩ := pushed_run_append sched₁ sched₂
  have hlen : (popped (run boot sched₁).trace).length = nonempty_polls boot sched₁ := by
    have := popped_length_run sched₁ boot
    simpa [boot, popped] using this
  have hpre : (pushed (run boot (sched₁ ++ sched₂)).trace).map some =
      popped (run boot sched₁).trace ++
        ((run boot sched₁).udev_queue.items.map some ++ more.map some) := by
    rw [hmore, List.map_append, h1, List.append_assoc]
  refine ⟨h2, ⟨_, hpre⟩, hlen, ?_⟩
  intro hn
  have hl := congrArg List.length hpre
  simp only [List.length_map, List.length_append] at hl
  rw [← hn, ← hlen] at hl
  have hq : (run boot sched₁).udev_queue.items = [] := by
    apply List.eq_nil_of_length_eq_zero
    omega
  have hm : more = [] := by
    apply List.eq_nil_of_length_eq_zero
    omega
  have hpop : popped (run boot sched₁).trace =
      (pushed (run boot (sched₁ ++ sched₂)).trace).map some := by
    rw [hpre, hq, hm]; simp
  refine ⟨hpop, by simp [QUEUE_SIZE, hq], ?_, ?_⟩
  · simp [consumer_iteration, QUEUE_SIZE, hq, queue_init]
    cases hs : (run boot sched₁).udev_queue with
    | mk its => rw [hs] at hq; simpa using hq
  · rw [consumer_iteration_trace, popped_append]
    simp [consumer_calls, QUEUE_SIZE, hq, popped]

/-- Witness for C2: the events `5` and `6` are pushed, a poll on the
empty queue and a spurious wake-up are interleaved, and both events are
popped. -/
theorem fifo_order_witness :
    popped (run boot [Step.consumer, Step.observer 1 true 5, Step.observer 1 true NULL,
        Step.observer 1 true 6, Step.consumer, Step.consumer]).trace =
      (pushed (run boot ([Step.consumer, Step.observer 1 true 5, Step.observer 1 true NULL,
        Step.observer 1 true 6, Step.consumer, Step.consumer] ++ [])).trace).map some ∧
    QUEUE_SIZE (run boot [Step.consumer, Step.observer 1 true 5, Step.observer 1 true NULL,
        Step.observer 1 true 6, Step.consumer, Step.consumer]).udev_queue = 0 :=
  ⟨((fifo_order [Step.consumer, Step.observer 1 true 5, Step.observer 1 true NULL,
        Step.observer 1 true 6, Step.consumer, Step.consumer] []).2.2.2 (by decide)).1,
   ((fifo_order [Step.consumer, Step.observer 1 true 5, Step.observer 1 true NULL,
        Step.observer 1 true 6, Step.consumer, Step.consumer] []).2.2.2 (by decide)).2.1⟩

/-- The number of entries of a list equal to `a`, as a count. -/
theorem filter_eq_length {α : Type} [DecidableEq α] (l : List α) (a : α) :
    (l.filter (fun d => decide (d = a))).length = List.count a l := by
  rw [List.count, List.countP_eq_length_filter]
  congr 2

/-- In a state that satisfies `Inv` and in which the events pushed so far are
pairwise distinct, every value released is an event, released once, that was
pushed and is no longer in the queue. -/
theorem released_once_of_inv (s : System) (h : Inv s) (hd : (pushed s.trace).Nodup) :
    (∀ e, release_count s.trace e ≤ 1) ∧
    none ∉ released s.trace ∧
    (∀ e, some e ∈ popped s.trace → release_count s.trace e = 1) ∧
    (∀ e, some e ∈ released s.trace → e ∈ pushed s.trace ∧ e ∉ s.udev_queue.items) := by
  obtain ⟨h1, h2⟩ := h
  have hinj : Function.Injective (some : Ptr → Option Ptr) := fun a b hab => by
    simpa using hab
  have hnd : (popped s.trace ++ s.udev_queue.items.map some).Nodup := by
    rw [← h1]
    exact hd.map hinj
  have hndp : (popped s.trace).Nodup := hnd.of_append_left
  unfold release_count
  rw [h2]
  refine ⟨?_, ?_, ?_, ?_⟩
  · intro e
    rw [filter_eq_length]
    exact List.nodup_iff_count_le_one.mp hndp (some e)
  · intro hnone
    have : none ∈ (pushed s.trace).map some := by
      rw [h1]; exact List.mem_append_left _ hnone
    simp at this
  · intro e he
    rw [filter_eq_length]
    exact List.count_eq_one_of_mem hndp he
  · intro e he
    constructor
    · have : some e ∈ (pushed s.trace).map some := by
        rw [h1]; exact List.mem_append_left _ he
      simpa using this
    · intro hq
      have hdis := List.disjoint_of_nodup_append hnd
      exact hdis he (List.mem_map_of_mem some hq)

/-- C3: in every run in which the events pushed are pairwise distinct (every
interleaving `sched₁ ++ sched₂` of iterations of the two loops), the calls of
`udev_device_unref` are made on the events popped, in the same order; no event
is released more than once; an event popped during `sched₁` has been released
exactly once at the end of `sched₁` and still exactly once at the end of the
run; and every value released is an event that was pushed and is no longer in
the queue. -/
theorem released_exactly_once (sched₁ sched₂ : List Step)
    (hd : (pushed (run boot (sched₁ ++ sched₂)).trace).Nodup) :
    released (run boot (sched₁ ++ sched₂)).trace = popped (run boot (sched₁ ++ sched₂)).trace ∧
    (∀ e, release_count (run boot (sched₁ ++ sched₂)).trace e ≤ 1) ∧
    none ∉ released (run boot (sched₁ ++ sched₂)).trace ∧
    (∀ e, some e ∈ popped (run boot sched₁).trace →
      release_count (run boot sched₁).trace e = 1 ∧
      release_count (run boot (sched₁ ++ sched₂)).trace e = 1) ∧
    (∀ e, some e ∈ released (run boot (sched₁ ++ sched₂)).trace →
      e ∈ pushed (run boot (sched₁ ++ sched₂)).trace ∧
      e ∉ (run boot (sched₁ ++ sched₂)).udev_queue.items) := by
  have hinv := inv_run (sched₁ ++ sched₂) boot inv_boot
  have hinv₁ := inv_run sched₁ boot inv_boot
  obtain ⟨more, hmore⟩ := pushed_run_append sched₁ sched₂
  obtain ⟨morep, hmorep⟩ := popped_run_append sched₁ sched₂
  have hd₁ : (pushed (run boot sched₁).trace).Nodup := by
    rw [hmore] at hd
    exact hd.of_append_left
  obtain ⟨a1, a2, a3, a4⟩ := released_once_of_inv _ hinv hd
  obtain ⟨_, _, b3, _⟩ := released_once_of_inv _ hinv₁ hd₁
  refine ⟨hinv.2, a1, a2, ?_, a4⟩
  intro e he
  refine ⟨b3 e he, a3 e ?_⟩
  rw [hmorep]
  exact List.mem_append_left _ he

/-- Witness for C3: the events `5` and `6` are pushed and
popped; the event `5`, popped by the first poll, has been released once after
it and at the end, was pushed and is not in the queue. -/
theorem released_exactly_once_witness :
    (pushed (run boot ([Step.observer 1 true 5, Step.consumer] ++
        [Step.observer 1 true 6, Step.consumer])).trace).Nodup ∧
    (release_count (run boot [Step.observer 1 true 5, Step.consumer]).trace 5 = 1 ∧
      release_count (run boot ([Step.observer 1 true 5, Step.consumer] ++
        [Step.observer 1 true 6, Step.consumer])).trace 5 = 1) ∧
    (5 ∈ pushed (run boot ([Step.observer 1 true 5, Step.consumer] ++
        [Step.observer 1 true 6, Step.consumer])).trace ∧
      5 ∉ (run boot ([Step.observer 1 true 5, Step.consumer] ++
        [Step.observer 1 true 6, Step.consumer])).udev_queue.items) :=
  ⟨by decide,
   (released_exactly_once [Step.observer 1 true 5, Step.consumer]
      [Step.observer 1 true 6, Step.consumer] (by decide)).2.2.2.1 5 (by decide),
   (released_exactly_once [Step.observer 1 true 5, Step.consumer]
      [Step.observer 1 true 6, Step.consumer] (by decide)).2.2.2.2 5 (by decide)⟩

/-- C8: the calls of every iteration of the observer loop, of every iteration
of the loop of `main` and of every run follow the locking discipline (the
queue is accessed only while `cond_mutex` is held, and `cond_mutex` is free
again at the end of the iteration); and after every run (the steps being the
iterations, hence the locked sections) the queue size is the number of pushes
minus the number of pops made so far. -/
theorem queue_accesses_locked (ret : Int) (isset : Bool) (dev : Ptr) (q : queue)
    (sched : List Step) :
    lock_discipline false (observer_calls ret isset dev) = true ∧
    lock_discipline false (consumer_calls q) = true ∧
    lock_discipline false (run boot sched).trace = true ∧
    (popped (run boot sched).trace).length ≤ (pushed (run boot sched).trace).length ∧
    QUEUE_SIZE (run boot sched).udev_queue =
      (pushed (run boot sched).trace).length - (popped (run boot sched).trace).length := by
  obtain ⟨h1, _⟩ := inv_run sched boot inv_boot
  have hl := congrArg List.length h1
  simp only [List.length_map, List.length_append] at hl
  refine ⟨observer_calls_locked ret isset dev, consumer_calls_locked q,
    run_locked sched boot (by simp [boot, lock_discipline]), ?_, ?_⟩
  · omega
  · simp only [QUEUE_SIZE]
    omega

end Drmdaemon
